import Mathlib

/-!
Shallow embedding of the realtime chat core of `src/chat.ts`:
the participant check, the send-message route (validation, persistence,
websocket fan-out), the history route, the websocket handshake, and the
connection-registry teardown.  External collaborators (the SQL store, the
JWT verifier, the socket send) are modelled as explicit state / function
parameters.
-/

namespace ChatKmat

/-- The four recognized message types of the `z.enum` in `SendMessageBody`
(`src/chat.ts`). -/
inductive MsgType
  | text
  | image
  | video
  | audio
deriving DecidableEq, Repr

/-- Parse of the `type` field: `z.enum(["text", "image", "video", "audio"])`
accepts exactly these four strings. -/
def MsgType.parse : String → Option MsgType
  | "text" => some MsgType.text
  | "image" => some MsgType.image
  | "video" => some MsgType.video
  | "audio" => some MsgType.audio
  | _ => none

/-- A row of the `conversations` table: `id`, `user_a_id`, `user_b_id`. -/
structure Conversation where
  id : String
  userA : String
  userB : String
deriving DecidableEq, Repr

/-- A row of the `messages` table.  The server-assigned `id` and `created_at`
are modelled as naturals drawn from the store's counter (the database assigns
them monotonically). `media_meta` is an opaque value, modelled as a string. -/
structure MessageRow where
  id : Nat
  conversationId : String
  senderId : String
  type : MsgType
  text : Option String
  mediaUrl : Option String
  mediaMeta : Option String
  createdAt : Nat
deriving DecidableEq, Repr

/-- The persistence gateway state: the two tables plus the counter from which
the server-assigned message id / timestamp are drawn. -/
structure Store where
  conversations : List Conversation
  messages : List MessageRow
  nextId : Nat
deriving DecidableEq, Repr

/-- A live websocket connection record (`WsClient` in `src/chat.ts`): user id,
conversation id, and the send handle.  The handle (`socket`) is modelled by a
numeric identity; distinct transports have distinct handles. -/
structure WsClient where
  uid : String
  conversationId : String
  sock : Nat
deriving DecidableEq, Repr

/-- Membership check `isParticipant`: one read against the store,
`select true from conversations where id=$1 and (user_a_id=$2 or user_b_id=$2) limit 1`,
coerced to a definite boolean by `!!rows[0]?.ok`. -/
def isParticipant (s : Store) (conversationId uid : String) : Bool :=
  s.conversations.any fun c =>
    c.id == conversationId && (c.userA == uid || c.userB == uid)

/-- Models zod's `z.string().uuid()` check on `conversationId`: 36 characters
shaped `8-4-4-4-12` with hexadecimal digits and dashes at positions
8, 13, 18 and 23. -/
def uuidCharOk (i : Nat) (c : Char) : Bool :=
  if i == 8 || i == 13 || i == 18 || i == 23 then c == '-'
  else c.isDigit || ('a' ≤ c && c ≤ 'f') || ('A' ≤ c && c ≤ 'F')

/-- Well-formedness of a conversation identifier (`z.string().uuid()`). -/
def isUuid (s : String) : Bool :=
  s.data.length == 36 && s.data.enum.all fun p => uuidCharOk p.1 p.2

/-- The raw JSON body of `POST /messages` before zod validation.  `type` and
`conversationId` arrive as plain strings; the remaining fields are optional. -/
structure RawBody where
  conversationId : String
  type : String
  text : Option String
  mediaUrl : Option String
  mediaMeta : Option String
deriving DecidableEq, Repr

/-- The body after a successful `SendMessageBody.safeParse`. -/
structure ParsedBody where
  conversationId : String
  type : MsgType
  text : Option String
  mediaUrl : Option String
  mediaMeta : Option String
deriving DecidableEq, Repr

/-- Parse `SendMessageBody.safeParse`: succeeds iff `conversationId` is a
well-formed uuid and `type` is one of the four enum values; the optional
fields pass through unchanged. -/
def SendMessageBody.safeParse (b : RawBody) : Option ParsedBody :=
  if isUuid b.conversationId then
    (MsgType.parse b.type).map fun t =>
      { conversationId := b.conversationId, type := t, text := b.text,
        mediaUrl := b.mediaUrl, mediaMeta := b.mediaMeta }
  else none

/-- Models `String.prototype.trim`: strip leading and trailing whitespace
(the core ASCII whitespace characters; the claims do not depend on the exotic
Unicode space characters JS additionally strips). -/
def jsTrim (s : String) : String :=
  String.mk (((s.data.dropWhile Char.isWhitespace).reverse.dropWhile
    Char.isWhitespace).reverse)

/-- The content checks of `POST /messages` after the participant check:
for `type === "text"`, `!text || !text.trim()` rejects; otherwise `!mediaUrl`
rejects a missing or empty `mediaUrl` — the empty string is falsy in JS.
(`!text` on the empty string and `!text.trim()` coincide: both hold
exactly when the trimmed text is empty.) -/
def contentOk (p : ParsedBody) : Bool :=
  match p.type with
  | MsgType.text =>
    match p.text with
    | none => false
    | some t => !(jsTrim t == "")
  | _ =>
    match p.mediaUrl with
    | none => false
    | some u => !(u == "")

/-- The serialized event `data` of the `message:new` envelope sent during
broadcast. -/
structure EventData where
  id : Nat
  conversationId : String
  senderId : String
  type : MsgType
  text : Option String
  mediaUrl : Option String
  mediaMeta : Option String
deriving DecidableEq, Repr

/-- The event carrying a persisted row's fields. -/
def eventOf (row : MessageRow) : EventData :=
  { id := row.id, conversationId := row.conversationId,
    senderId := row.senderId, type := row.type, text := row.text,
    mediaUrl := row.mediaUrl, mediaMeta := row.mediaMeta }

/-- One send attempt during broadcast: the target connection, the event given
to `socket.send`, and whether the send succeeded (`delivered = false` models
`socket.send` throwing, swallowed by the `try {} catch {}`). -/
structure Attempt where
  client : WsClient
  event : EventData
  delivered : Bool
deriving DecidableEq, Repr

/-- The broadcast loop of `POST /messages`:
`wsClients.filter(c => c.conversationId === conversationId).forEach(c => try { c.socket.send(...) } catch {})`.
`sendFails` tells which send handles throw. -/
def broadcast (clients : List WsClient) (sendFails : Nat → Bool)
    (ev : EventData) : List Attempt :=
  (clients.filter fun c => c.conversationId == ev.conversationId).map
    fun c => { client := c, event := ev, delivered := !sendFails c.sock }

/-- Result of `POST /messages`: 400 (`Dados inválidos` / `Texto obrigatório` /
`mediaUrl obrigatório`), 403 (`Sem acesso a esta conversa`), or
`{ ok: true, id }`. -/
inductive SendResult
  | invalidInput
  | forbidden
  | ok (id : Nat)
deriving DecidableEq, Repr

/-- What a `POST /messages` call produces: the reply, the store afterwards,
and the list of broadcast attempts. -/
structure SendOutcome where
  result : SendResult
  store : Store
  attempts : List Attempt
deriving DecidableEq, Repr

/-- Route `POST /messages`: zod parse, participant check, content checks, insert
(with `text ?? null`, `mediaUrl ?? null`, `mediaMeta ?? null`), then the
websocket broadcast built from the request values and the returned id. -/
def sendMessage (s : Store) (clients : List WsClient) (sendFails : Nat → Bool)
    (uid : String) (body : RawBody) : SendOutcome :=
  match SendMessageBody.safeParse body with
  | none => { result := SendResult.invalidInput, store := s, attempts := [] }
  | some p =>
    if isParticipant s p.conversationId uid then
      if contentOk p then
        let row : MessageRow :=
          { id := s.nextId, conversationId := p.conversationId,
            senderId := uid, type := p.type, text := p.text,
            mediaUrl := p.mediaUrl, mediaMeta := p.mediaMeta,
            createdAt := s.nextId }
        let ev : EventData :=
          { id := s.nextId, conversationId := p.conversationId,
            senderId := uid, type := p.type, text := p.text,
            mediaUrl := p.mediaUrl, mediaMeta := p.mediaMeta }
        { result := SendResult.ok s.nextId,
          store := { s with messages := s.messages ++ [row],
                            nextId := s.nextId + 1 },
          attempts := broadcast clients sendFails ev }
      else { result := SendResult.invalidInput, store := s, attempts := [] }
    else { result := SendResult.forbidden, store := s, attempts := [] }

/-- Comparison used by `order by created_at asc`. -/
def createdLe (a b : MessageRow) : Prop := a.createdAt ≤ b.createdAt

instance : DecidableRel createdLe := fun a b => Nat.decLe a.createdAt b.createdAt

instance : IsTotal MessageRow createdLe := ⟨fun a b => Nat.le_total a.createdAt b.createdAt⟩

instance : IsTrans MessageRow createdLe := ⟨fun _ _ _ => Nat.le_trans⟩

/-- Result of `GET /conversations/:id/messages`. -/
inductive HistoryResult
  | forbidden
  | ok (messages : List MessageRow)
deriving DecidableEq, Repr

/-- Route `GET /conversations/:id/messages`: participant check, then
`select ... where conversation_id=$1 order by created_at asc limit 500`. -/
def getHistory (s : Store) (uid conversationId : String) : HistoryResult :=
  if isParticipant s conversationId uid then
    HistoryResult.ok
      (((s.messages.filter fun m =>
          m.conversationId == conversationId).insertionSort createdLe).take 500)
  else HistoryResult.forbidden

/-- Token extraction from the `authorization` header:
`auth?.startsWith("Bearer ") ? auth.slice(7) : null`. -/
def tokenFromHeader (auth : Option String) : Option String :=
  match auth with
  | some a => if a.startsWith "Bearer " then some (a.drop 7) else none
  | none => none

/-- Query token normalization `(req.query?.token as string) || null`: an absent or empty query token
becomes `null`. -/
def jsOrNull (o : Option String) : Option String :=
  match o with
  | some s => if s = "" then none else some s
  | none => none

/-- JavaScript `a || b` on nullable strings: the empty string is falsy. -/
def jsOr (a b : Option String) : Option String :=
  match a with
  | some s => if s = "" then b else some s
  | none => b

/-- Outcome of the `GET /ws` handshake: transport closed, or a client record
registered. -/
inductive WsOutcome
  | rejected
  | registered (c : WsClient)
deriving DecidableEq, Repr

/-- The `GET /ws` handshake: token from header or query, `app.jwt.verify`
(modelled by the `verify` parameter, which yields the `uid` of a valid
token's payload), `conversationId` from the query (`|| ""`, rejected when
empty), the participant check, then `wsClients.push(client)`.  Every failing
check closes the transport and leaves the registry untouched. -/
def wsHandshake (verify : String → Option String) (s : Store)
    (authHeader queryToken queryConvId : Option String) (sock : Nat)
    (clients : List WsClient) : List WsClient × WsOutcome :=
  match jsOr (tokenFromHeader authHeader) (jsOrNull queryToken) with
  | none => (clients, WsOutcome.rejected)
  | some tk =>
    match verify tk with
    | none => (clients, WsOutcome.rejected)
    | some uid =>
      if queryConvId.getD "" = "" then (clients, WsOutcome.rejected)
      else if isParticipant s (queryConvId.getD "") uid then
        (clients ++ [{ uid := uid, conversationId := queryConvId.getD "",
                       sock := sock }],
         WsOutcome.registered
           { uid := uid, conversationId := queryConvId.getD "", sock := sock })
      else (clients, WsOutcome.rejected)

/-- The close handler:
`const idx = wsClients.indexOf(client); if (idx >= 0) wsClients.splice(idx, 1)` —
remove the first occurrence of the record when present, no-op otherwise
(`indexOf` returns `-1` and `splice` is skipped). -/
def removeClient : List WsClient → WsClient → List WsClient
  | [], _ => []
  | h :: t, c => if h = c then t else h :: removeClient t c

/-! Concrete fixtures used to exercise the theorems on closed inputs. -/

/-- A well-formed conversation identifier. -/
def convId1 : String := "11111111-1111-1111-1111-111111111111"

/-- A second well-formed conversation identifier. -/
def convId2 : String := "22222222-2222-2222-2222-222222222222"

/-- A store with two conversations: `u1`/`u2` on `convId1`, `u1`/`u3` on
`convId2`. -/
def store1 : Store :=
  { conversations :=
      [{ id := convId1, userA := "u1", userB := "u2" },
       { id := convId2, userA := "u1", userB := "u3" }],
    messages := [], nextId := 0 }

/-- A connection of `u2` on `convId1`. -/
def clientA : WsClient := { uid := "u2", conversationId := convId1, sock := 7 }

/-- A connection of `u3` on `convId2`. -/
def clientB : WsClient := { uid := "u3", conversationId := convId2, sock := 8 }

/-- A second connection of `u1` on `convId1` (another tab). -/
def clientC : WsClient := { uid := "u1", conversationId := convId1, sock := 9 }

/-- No send handle throws. -/
def noFail : Nat → Bool := fun _ => false

/-- Send handle 9 throws. -/
def failOn9 : Nat → Bool := fun n => n == 9

/-- A valid text message for `convId1`, with surrounding whitespace kept. -/
def textBody : RawBody :=
  { conversationId := convId1, type := "text", text := some " hi ",
    mediaUrl := none, mediaMeta := none }

/-- A text message whose text is blank after trimming. -/
def blankTextBody : RawBody :=
  { conversationId := convId1, type := "text", text := some "   ",
    mediaUrl := none, mediaMeta := none }

/-- An image message without a `mediaUrl`, but carrying a text field. -/
def imageNoUrlBody : RawBody :=
  { conversationId := convId1, type := "image", text := some " keep ",
    mediaUrl := none, mediaMeta := none }

/-- An image message with a `mediaUrl` and a stray text field. -/
def imageBody : RawBody :=
  { conversationId := convId1, type := "image", text := some " keep ",
    mediaUrl := some "/files/a.png", mediaMeta := some "meta" }

/-- An image message whose `mediaUrl` is present but empty — zod's
`z.string().optional()` accepts the empty string, but `!mediaUrl` is truthy
on it. -/
def imageEmptyUrlBody : RawBody :=
  { conversationId := convId1, type := "image", text := none,
    mediaUrl := some "", mediaMeta := none }

/-- The parse of `imageEmptyUrlBody`. -/
def imageEmptyUrlParsed : ParsedBody :=
  { conversationId := convId1, type := MsgType.image, text := none,
    mediaUrl := some "", mediaMeta := none }

/-- A body whose `conversationId` is not a well-formed uuid. -/
def badIdBody : RawBody :=
  { conversationId := "nope", type := "text", text := some "hi",
    mediaUrl := none, mediaMeta := none }

/-- The parse of `textBody`. -/
def textParsed : ParsedBody :=
  { conversationId := convId1, type := MsgType.text, text := some " hi ",
    mediaUrl := none, mediaMeta := none }

/-- The parse of `blankTextBody`. -/
def blankTextParsed : ParsedBody :=
  { conversationId := convId1, type := MsgType.text, text := some "   ",
    mediaUrl := none, mediaMeta := none }

/-- The parse of `imageBody`. -/
def imageParsed : ParsedBody :=
  { conversationId := convId1, type := MsgType.image, text := some " keep ",
    mediaUrl := some "/files/a.png", mediaMeta := some "meta" }

/-- A token verifier fixture: `"tok1"` is `u1`'s valid token. -/
def verify1 : String → Option String :=
  fun t => if t = "tok1" then some "u1" else none

/-- A persisted message on `convId1` with the earlier timestamp. -/
def msgRow0 : MessageRow :=
  { id := 0, conversationId := convId1, senderId := "u1",
    type := MsgType.text, text := some "a", mediaUrl := none,
    mediaMeta := none, createdAt := 0 }

/-- A persisted message on `convId1` with the later timestamp. -/
def msgRow1 : MessageRow :=
  { id := 1, conversationId := convId1, senderId := "u2",
    type := MsgType.text, text := some "b", mediaUrl := none,
    mediaMeta := none, createdAt := 1 }

/-- The store `store1` with the two messages held out of creation order. -/
def store2 : Store :=
  { conversations := store1.conversations, messages := [msgRow1, msgRow0],
    nextId := 2 }

/-! Helper lemmas shared by the claim theorems. -/

lemma isParticipant_eq_true_iff (s : Store) (cid uid : String) :
    isParticipant s cid uid = true ↔
      ∃ c, c ∈ s.conversations ∧ c.id = cid ∧
        (c.userA = uid ∨ c.userB = uid) := by
  simp [isParticipant, List.any_eq_true, Bool.and_eq_true, Bool.or_eq_true,
    beq_iff_eq, and_assoc]

lemma removeClient_of_not_mem {l : List WsClient} {c : WsClient}
    (h : c ∉ l) : removeClient l c = l := by
  induction l with
  | nil => rfl
  | cons hd tl ih =>
    have hne : hd ≠ c := fun he => h (he ▸ List.mem_cons_self hd tl)
    have htl : c ∉ tl := fun hm => h (List.mem_cons_of_mem hd hm)
    simp [removeClient, hne, ih htl]

/-- C6: `isParticipant` returns `true` iff the conversation exists in the
store and the user equals one of its two stored participant identifiers, and
it is a definite `false` (a total boolean, not an error) when the
conversation does not exist. -/
theorem isParticipant_correct (s : Store) (cid uid : String) :
    (isParticipant s cid uid = true ↔
      ∃ c, c ∈ s.conversations ∧ c.id = cid ∧
        (c.userA = uid ∨ c.userB = uid)) ∧
    ((∀ c ∈ s.conversations, c.id ≠ cid) → isParticipant s cid uid = false) := by
  refine ⟨isParticipant_eq_true_iff s cid uid, ?_⟩
  intro h
  cases hb : isParticipant s cid uid with
  | false => rfl
  | true =>
    obtain ⟨c, hc, hid, _⟩ := (isParticipant_eq_true_iff s cid uid).mp hb
    exact absurd hid (h c hc)

/-- Witness for `isParticipant_correct` at concrete inputs: a stored
participant is recognized, and a missing conversation yields `false`. -/
theorem isParticipant_correct_witness :
    isParticipant store1 convId1 "u2" = true ∧
    isParticipant { conversations := [], messages := [], nextId := 0 }
      convId1 "u2" = false := by
  constructor
  · exact (isParticipant_correct store1 convId1 "u2").1.mpr
      ⟨{ id := convId1, userA := "u1", userB := "u2" }, by decide, rfl,
        Or.inr rfl⟩
  · exact (isParticipant_correct
      { conversations := [], messages := [], nextId := 0 } convId1 "u2").2
      (by intro c hc; simp at hc)

lemma safeParse_fields {b : RawBody} {p : ParsedBody}
    (hp : SendMessageBody.safeParse b = some p) :
    p.conversationId = b.conversationId ∧ p.text = b.text ∧
      p.mediaUrl = b.mediaUrl ∧ p.mediaMeta = b.mediaMeta ∧
      MsgType.parse b.type = some p.type ∧ isUuid b.conversationId = true := by
  cases hu : isUuid b.conversationId with
  | false => simp [SendMessageBody.safeParse, hu] at hp
  | true =>
    simp only [SendMessageBody.safeParse, hu, if_true,
      Option.map_eq_some'] at hp
    obtain ⟨t, ht, hpe⟩ := hp
    subst hpe
    exact ⟨rfl, rfl, rfl, rfl, ht, rfl⟩

lemma sendMessage_success (s : Store) (clients : List WsClient)
    (sendFails : Nat → Bool) (uid : String) (body : RawBody) (p : ParsedBody)
    (hp : SendMessageBody.safeParse body = some p)
    (hauth : isParticipant s p.conversationId uid = true)
    (hok : contentOk p = true) :
    sendMessage s clients sendFails uid body =
      { result := SendResult.ok s.nextId,
        store := { s with
          messages := s.messages ++
            [{ id := s.nextId, conversationId := p.conversationId,
               senderId := uid, type := p.type, text := p.text,
               mediaUrl := p.mediaUrl, mediaMeta := p.mediaMeta,
               createdAt := s.nextId }],
          nextId := s.nextId + 1 },
        attempts := broadcast clients sendFails
          { id := s.nextId, conversationId := p.conversationId,
            senderId := uid, type := p.type, text := p.text,
            mediaUrl := p.mediaUrl, mediaMeta := p.mediaMeta } } := by
  simp [sendMessage, hp, hauth, hok]

lemma broadcast_event (clients : List WsClient) (sendFails : Nat → Bool)
    (ev : EventData) : ∀ a ∈ broadcast clients sendFails ev, a.event = ev := by
  intro a ha
  simp only [broadcast, List.mem_map] at ha
  obtain ⟨x, _, rfl⟩ := ha
  rfl

lemma broadcast_mem (clients : List WsClient) (sendFails : Nat → Bool)
    (ev : EventData) (c : WsClient) (hc : c ∈ clients)
    (hm : c.conversationId = ev.conversationId) :
    ({ client := c, event := ev, delivered := !sendFails c.sock } : Attempt) ∈
      broadcast clients sendFails ev := by
  simp only [broadcast, List.mem_map]
  exact ⟨c, List.mem_filter.mpr ⟨hc, by simp [hm]⟩, rfl⟩

lemma broadcast_filter_count (clients : List WsClient) (sendFails : Nat → Bool)
    (ev : EventData) (c : WsClient) :
    ((broadcast clients sendFails ev).filter fun a => a.client == c).length =
      if c.conversationId = ev.conversationId then clients.count c else 0 := by
  induction clients with
  | nil => simp [broadcast]
  | cons hd tl ih =>
    simp only [broadcast] at ih ⊢
    by_cases h1 : hd.conversationId = ev.conversationId
    · by_cases h2 : hd = c
      · subst h2
        simp [List.filter_cons, h1, ih, List.count_cons_self]
      · simp [List.filter_cons, h1, h2, ih,
          List.count_cons_of_ne (fun he => h2 he.symm)]
    · simp only [List.filter_cons, beq_iff_eq, h1, if_false]
      rw [ih]
      by_cases h3 : c.conversationId = ev.conversationId
      · have h2 : hd ≠ c := fun he => h1 (he ▸ h3)
        simp [h3, List.count_cons_of_ne (fun he => h2 he.symm)]
      · simp [h3]

/-- C2: a well-formed send request whose authenticated sender is not a
participant of the target conversation is answered `Forbidden`, persists no
row, and attempts no broadcast: the store is returned unchanged. -/
theorem send_forbidden_no_write (s : Store) (clients : List WsClient)
    (sendFails : Nat → Bool) (uid : String) (body : RawBody) (p : ParsedBody)
    (hp : SendMessageBody.safeParse body = some p)
    (hauth : isParticipant s p.conversationId uid = false) :
    sendMessage s clients sendFails uid body =
      { result := SendResult.forbidden, store := s, attempts := [] } := by
  simp [sendMessage, hp, hauth]

/-- Witness for `send_forbidden_no_write`: `u3` is no participant of
`convId1`; the send is rejected with the store unchanged and no attempts. -/
theorem send_forbidden_no_write_witness :
    sendMessage store1 [clientA] noFail "u3" textBody =
      { result := SendResult.forbidden, store := store1, attempts := [] } :=
  send_forbidden_no_write store1 [clientA] noFail "u3" textBody textParsed
    (by decide) (by decide)

/-- C1: a successfully persisted message is broadcast to every connection
registered with its conversation exactly once (once per occurrence of the
record in the registry, and a record is registered once), the event fields
match the persisted row, and a connection registered with a different
conversation never receives it. -/
theorem broadcast_exactly_once (s : Store) (clients : List WsClient)
    (sendFails : Nat → Bool) (uid : String) (body : RawBody) (p : ParsedBody)
    (c : WsClient)
    (hp : SendMessageBody.safeParse body = some p)
    (hauth : isParticipant s p.conversationId uid = true)
    (hok : contentOk p = true)
    (hreg : clients.count c = 1) :
    ∃ row,
      (sendMessage s clients sendFails uid body).store.messages =
        s.messages ++ [row] ∧
      (∀ a ∈ (sendMessage s clients sendFails uid body).attempts,
        a.event = eventOf row) ∧
      (c.conversationId = p.conversationId →
        ((sendMessage s clients sendFails uid body).attempts.filter
            fun a => a.client == c).length = 1) ∧
      (c.conversationId ≠ p.conversationId →
        ((sendMessage s clients sendFails uid body).attempts.filter
            fun a => a.client == c).length = 0) := by
  rw [sendMessage_success s clients sendFails uid body p hp hauth hok]
  refine ⟨_, rfl, broadcast_event clients sendFails _, ?_, ?_⟩
  · intro hm
    rw [broadcast_filter_count]
    simp [hm, hreg]
  · intro hm
    rw [broadcast_filter_count]
    simp [hm]

/-- Witness for `broadcast_exactly_once`: with `clientA` (on `convId1`) and
`clientB` (on `convId2`) registered, `u1`'s text message to `convId1`
reaches `clientA` exactly once and `clientB` not at all. -/
theorem broadcast_exactly_once_witness :
    ((sendMessage store1 [clientA, clientB] noFail "u1" textBody).attempts.filter
        fun a => a.client == clientA).length = 1 ∧
    ((sendMessage store1 [clientA, clientB] noFail "u1" textBody).attempts.filter
        fun a => a.client == clientB).length = 0 := by
  obtain ⟨rowA, -, -, hmatchA, -⟩ :=
    broadcast_exactly_once store1 [clientA, clientB] noFail "u1" textBody
      textParsed clientA (by decide) (by decide) (by decide) (by decide)
  obtain ⟨rowB, -, -, -, hnonB⟩ :=
    broadcast_exactly_once store1 [clientA, clientB] noFail "u1" textBody
      textParsed clientB (by decide) (by decide) (by decide) (by decide)
  exact ⟨hmatchA (by decide), hnonB (by decide)⟩

/-- C5: broadcast is best-effort per connection: whatever send handles throw,
the caller still gets the success response carrying the persisted id, the
persisted row stays in the store, and every matching connection whose own
send does not throw is still delivered. -/
theorem delivery_failure_isolated (s : Store) (clients : List WsClient)
    (sendFails : Nat → Bool) (uid : String) (body : RawBody) (p : ParsedBody)
    (hp : SendMessageBody.safeParse body = some p)
    (hauth : isParticipant s p.conversationId uid = true)
    (hok : contentOk p = true) :
    (sendMessage s clients sendFails uid body).result =
      SendResult.ok s.nextId ∧
    (∃ row, row.id = s.nextId ∧
      (sendMessage s clients sendFails uid body).store.messages =
        s.messages ++ [row]) ∧
    (∀ c ∈ clients, c.conversationId = p.conversationId →
      sendFails c.sock = false →
      ∃ a ∈ (sendMessage s clients sendFails uid body).attempts,
        a.client = c ∧ a.delivered = true) := by
  rw [sendMessage_success s clients sendFails uid body p hp hauth hok]
  refine ⟨rfl, ⟨_, rfl, rfl⟩, ?_⟩
  intro c hc hm hnf
  refine ⟨_, broadcast_mem clients sendFails _ c hc hm, rfl, ?_⟩
  simp [hnf]

/-- Witness for `delivery_failure_isolated`: with `clientC`'s send handle
throwing, the send still succeeds with the persisted id and `clientA` (also
on `convId1`) is still delivered. -/
theorem delivery_failure_isolated_witness :
    (sendMessage store1 [clientA, clientC] failOn9 "u1" textBody).result =
      SendResult.ok 0 ∧
    ∃ a ∈ (sendMessage store1 [clientA, clientC] failOn9 "u1" textBody).attempts,
      a.client = clientA ∧ a.delivered = true := by
  obtain ⟨hres, -, hdel⟩ :=
    delivery_failure_isolated store1 [clientA, clientC] failOn9 "u1" textBody
      textParsed (by decide) (by decide) (by decide)
  exact ⟨hres, hdel clientA (by decide) (by decide) (by decide)⟩

/-- C10: an accepted message is persisted and broadcast with the submitted
text verbatim (`text ?? null`): trimming happens only inside the validation
check, so surrounding whitespace is kept, and a non-text message's stray
text field passes through unchanged; the same holds for `mediaUrl`. -/
theorem text_persisted_verbatim (s : Store) (clients : List WsClient)
    (sendFails : Nat → Bool) (uid : String) (body : RawBody) (p : ParsedBody)
    (hp : SendMessageBody.safeParse body = some p)
    (hauth : isParticipant s p.conversationId uid = true)
    (hok : contentOk p = true) :
    ∃ row,
      (sendMessage s clients sendFails uid body).store.messages =
        s.messages ++ [row] ∧
      row.text = body.text ∧ row.mediaUrl = body.mediaUrl ∧
      ∀ a ∈ (sendMessage s clients sendFails uid body).attempts,
        a.event.text = body.text := by
  obtain ⟨-, htext, hurl, -, -, -⟩ := safeParse_fields hp
  rw [sendMessage_success s clients sendFails uid body p hp hauth hok]
  refine ⟨_, rfl, htext, hurl, ?_⟩
  intro a ha
  rw [broadcast_event clients sendFails _ a ha]
  exact htext

/-- Witness for `text_persisted_verbatim`: the stored text of the accepted
`" hi "` message keeps its whitespace, and an image message's stray text
field is persisted unchanged. -/
theorem text_persisted_verbatim_witness :
    (∃ row,
      (sendMessage store1 [clientA] noFail "u1" textBody).store.messages =
        [] ++ [row] ∧
      row.text = some " hi " ∧ row.mediaUrl = none ∧
      ∀ a ∈ (sendMessage store1 [clientA] noFail "u1" textBody).attempts,
        a.event.text = some " hi ") ∧
    (∃ row,
      (sendMessage store1 [clientA] noFail "u1" imageBody).store.messages =
        [] ++ [row] ∧
      row.text = some " keep " ∧ row.mediaUrl = some "/files/a.png" ∧
      ∀ a ∈ (sendMessage store1 [clientA] noFail "u1" imageBody).attempts,
        a.event.text = some " keep ") :=
  ⟨text_persisted_verbatim store1 [clientA] noFail "u1" textBody textParsed
      (by decide) (by decide) (by decide),
    text_persisted_verbatim store1 [clientA] noFail "u1" imageBody imageParsed
      (by decide) (by decide) (by decide)⟩

/-- C3, amended: the validation checks run in a fixed order and the first
failing check determines the reply: (1) a body whose `conversationId` is not
a well-formed uuid or whose `type` is unrecognized fails the parse and
yields `InvalidInput` regardless of the sender; (2) a parsed body whose
sender is not a participant yields `Forbidden` regardless of the content;
(3) for a participant, a `text` message needs a text non-empty after
trimming, and (4) a non-`text` message needs a present and non-empty
`mediaUrl` (the `!mediaUrl` falsy check also rejects the empty string), else
`InvalidInput`. -/
theorem send_validation_order (s : Store) (clients : List WsClient)
    (sendFails : Nat → Bool) (uid : String) (body : RawBody) :
    (SendMessageBody.safeParse body = none ↔
      (isUuid body.conversationId = false ∨ MsgType.parse body.type = none)) ∧
    (SendMessageBody.safeParse body = none →
      sendMessage s clients sendFails uid body =
        { result := SendResult.invalidInput, store := s, attempts := [] }) ∧
    (∀ p, SendMessageBody.safeParse body = some p →
      isParticipant s p.conversationId uid = false →
      sendMessage s clients sendFails uid body =
        { result := SendResult.forbidden, store := s, attempts := [] }) ∧
    (∀ p, SendMessageBody.safeParse body = some p →
      isParticipant s p.conversationId uid = true →
      contentOk p = false →
      sendMessage s clients sendFails uid body =
        { result := SendResult.invalidInput, store := s, attempts := [] }) ∧
    (∀ p : ParsedBody, p.type = MsgType.text →
      (contentOk p = true ↔ ∃ t, p.text = some t ∧ jsTrim t ≠ "")) ∧
    (∀ p : ParsedBody, p.type ≠ MsgType.text →
      (contentOk p = true ↔ ∃ u, p.mediaUrl = some u ∧ u ≠ "")) := by
  refine ⟨?_, ?_, ?_, ?_, ?_, ?_⟩
  · cases hu : isUuid body.conversationId with
    | false => simp [SendMessageBody.safeParse, hu]
    | true =>
      cases ht : MsgType.parse body.type with
      | none => simp [SendMessageBody.safeParse, hu, ht]
      | some t => simp [SendMessageBody.safeParse, hu, ht]
  · intro hp
    simp [sendMessage, hp]
  · intro p hp hauth
    simp [sendMessage, hp, hauth]
  · intro p hp hauth hok
    simp [sendMessage, hp, hauth, hok]
  · intro p hty
    cases htx : p.text with
    | none => simp [contentOk, hty, htx]
    | some t => simp [contentOk, hty, htx]
  · intro p hty
    cases hty2 : p.type with
    | text => exact absurd hty2 hty
    | image =>
      cases hmu : p.mediaUrl with
      | none => simp [contentOk, hty2, hmu]
      | some u => simp [contentOk, hty2, hmu]
    | video =>
      cases hmu : p.mediaUrl with
      | none => simp [contentOk, hty2, hmu]
      | some u => simp [contentOk, hty2, hmu]
    | audio =>
      cases hmu : p.mediaUrl with
      | none => simp [contentOk, hty2, hmu]
      | some u => simp [contentOk, hty2, hmu]

/-- Counterexample to C3 as literally stated: an image message whose
`mediaUrl` is present (`some ""`) passes the parse, its sender `u1` is a
participant, yet the program rejects it with `InvalidInput` and persists
nothing — `!mediaUrl` is truthy on the empty string, so check (4) demands
more than mere presence. -/
theorem send_validation_order_counterexample :
    imageEmptyUrlBody.mediaUrl = some "" ∧
    SendMessageBody.safeParse imageEmptyUrlBody = some imageEmptyUrlParsed ∧
    isParticipant store1 convId1 "u1" = true ∧
    sendMessage store1 [clientA] noFail "u1" imageEmptyUrlBody =
      { result := SendResult.invalidInput, store := store1,
        attempts := [] } := by
  decide

/-- Witness for `send_validation_order`: a malformed body from a
non-participant is `InvalidInput`; a blank text from a non-participant is
`Forbidden`; a blank text from a participant and an image without
`mediaUrl` from a participant are `InvalidInput` — all with no write and no
broadcast. -/
theorem send_validation_order_witness :
    sendMessage store1 [clientA] noFail "u9" badIdBody =
      { result := SendResult.invalidInput, store := store1, attempts := [] } ∧
    sendMessage store1 [clientA] noFail "u3" blankTextBody =
      { result := SendResult.forbidden, store := store1, attempts := [] } ∧
    sendMessage store1 [clientA] noFail "u1" blankTextBody =
      { result := SendResult.invalidInput, store := store1, attempts := [] } ∧
    sendMessage store1 [clientA] noFail "u1" imageNoUrlBody =
      { result := SendResult.invalidInput, store := store1, attempts := [] } :=
  ⟨(send_validation_order store1 [clientA] noFail "u9" badIdBody).2.1
      (by decide),
    (send_validation_order store1 [clientA] noFail "u3" blankTextBody).2.2.1
      blankTextParsed (by decide) (by decide),
    (send_validation_order store1 [clientA] noFail "u1" blankTextBody).2.2.2.1
      blankTextParsed (by decide) (by decide) (by decide),
    (send_validation_order store1 [clientA] noFail "u1"
        imageNoUrlBody).2.2.2.1
      { conversationId := convId1, type := MsgType.image, text := some " keep ",
        mediaUrl := none, mediaMeta := none }
      (by decide) (by decide) (by decide)⟩

/-- C4: the `GET /ws` handshake registers a connection only when a token was
supplied (header or query), it verified, a conversation id was supplied, and
the participant check passed for that conversation and the token's user;
any failing check terminates the transport with the registry unchanged, so
every record entering the registry passed the participant check. -/
theorem handshake_registers_only_authorized (verify : String → Option String)
    (s : Store) (authHeader queryToken queryConvId : Option String)
    (sock : Nat) (clients : List WsClient) :
    ((wsHandshake verify s authHeader queryToken queryConvId sock clients).2 =
        WsOutcome.rejected →
      (wsHandshake verify s authHeader queryToken queryConvId sock
          clients).1 = clients) ∧
    (∀ c,
      (wsHandshake verify s authHeader queryToken queryConvId sock
          clients).2 = WsOutcome.registered c →
      (wsHandshake verify s authHeader queryToken queryConvId sock
          clients).1 = clients ++ [c] ∧
      (∃ tk, jsOr (tokenFromHeader authHeader) (jsOrNull queryToken) =
          some tk ∧ verify tk = some c.uid) ∧
      c.conversationId = queryConvId.getD "" ∧
      c.conversationId ≠ "" ∧
      isParticipant s c.conversationId c.uid = true ∧
      c.sock = sock) := by
  cases htk : jsOr (tokenFromHeader authHeader) (jsOrNull queryToken) with
  | none => simp [wsHandshake, htk]
  | some tk =>
    cases hv : verify tk with
    | none => simp [wsHandshake, htk, hv]
    | some uid =>
      by_cases hcid : queryConvId.getD "" = ""
      · simp [wsHandshake, htk, hv, hcid]
      · by_cases hpart : isParticipant s (queryConvId.getD "") uid
        · simp only [wsHandshake, htk, hv, hcid, hpart, if_true, if_false,
            if_neg hcid]
          constructor
          · intro h
            exact absurd h (by simp)
          · intro c hc
            have hc' :
                ({ uid := uid, conversationId := queryConvId.getD "",
                   sock := sock } : WsClient) = c :=
              WsOutcome.registered.inj hc
            subst hc'
            exact ⟨rfl, ⟨tk, rfl, hv⟩, rfl, hcid, hpart, rfl⟩
        · simp [wsHandshake, htk, hv, hcid, hpart]

/-- Witness for `handshake_registers_only_authorized`: `u1`'s valid query
token on `convId1` registers the record and the record passed the
participant check; the same handshake with a missing token is rejected with
the registry unchanged. -/
theorem handshake_registers_only_authorized_witness :
    (wsHandshake verify1 store1 none (some "tok1") (some convId1) 5 []).1 =
      [] ++ [{ uid := "u1", conversationId := convId1, sock := 5 }] ∧
    isParticipant store1 convId1 "u1" = true ∧
    (wsHandshake verify1 store1 none none (some convId1) 5 [clientA]).1 =
      [clientA] := by
  obtain ⟨-, hreg⟩ :=
    handshake_registers_only_authorized verify1 store1 none (some "tok1")
      (some convId1) 5 []
  obtain ⟨hlist, -, -, -, hpart, -⟩ :=
    hreg { uid := "u1", conversationId := convId1, sock := 5 } (by decide)
  obtain ⟨hrej, -⟩ :=
    handshake_registers_only_authorized verify1 store1 none none
      (some convId1) 5 [clientA]
  exact ⟨hlist, hpart, hrej (by decide)⟩

/-- C7: a history fetch by a non-participant is `Forbidden`; a successful
fetch returns at most 500 messages, all of the requested conversation,
ordered ascending by creation time. -/
theorem history_cap_order_auth (s : Store) (uid cid : String) :
    (isParticipant s cid uid = false →
      getHistory s uid cid = HistoryResult.forbidden) ∧
    (∀ msgs, getHistory s uid cid = HistoryResult.ok msgs →
      msgs.length ≤ 500 ∧
      (∀ m ∈ msgs, m.conversationId = cid) ∧
      List.Sorted createdLe msgs) := by
  constructor
  · intro hpart
    simp [getHistory, hpart]
  · intro msgs hmsgs
    by_cases hpart : isParticipant s cid uid
    · simp only [getHistory, hpart, if_true] at hmsgs
      obtain rfl := (HistoryResult.ok.inj hmsgs).symm
      refine ⟨List.length_take_le 500 _, ?_, ?_⟩
      · intro m hm
        have hmem : m ∈ (s.messages.filter fun x =>
            x.conversationId == cid).insertionSort createdLe :=
          List.take_subset 500 _ hm
        have hmem2 : m ∈ s.messages.filter fun x =>
            x.conversationId == cid :=
          (List.perm_insertionSort createdLe _).subset hmem
        have := (List.mem_filter.mp hmem2).2
        exact beq_iff_eq.mp this
      · exact List.Pairwise.sublist (List.take_sublist 500 _)
          (List.sorted_insertionSort createdLe _)
    · simp [getHistory, hpart] at hmsgs

/-- Witness for `history_cap_order_auth`: `u3` is refused the history of
`convId1`, and `u1`'s fetch of `convId1` on a store with two messages obeys
the cap, the conversation restriction, and the ordering. -/
theorem history_cap_order_auth_witness :
    getHistory store1 "u3" convId1 = HistoryResult.forbidden ∧
    (∀ m ∈ [msgRow0, msgRow1], m.conversationId = convId1) ∧
    List.Sorted createdLe [msgRow0, msgRow1] := by
  refine ⟨(history_cap_order_auth store1 "u3" convId1).1 (by decide), ?_⟩
  obtain ⟨-, hmem, hsort⟩ :=
    (history_cap_order_auth store2 "u1" convId1).2 [msgRow0, msgRow1]
      (by decide)
  exact ⟨hmem, hsort⟩

/-- C8: registry teardown is idempotent.  `removeClient` is total (the
`idx >= 0` guard means a missing record is a no-op, nothing is raised), and
on any registry state in which the record occurs at most once — every
reachable state, since each registration pushes a fresh record with a
distinct transport handle — removing it twice equals removing it once. -/
theorem removeClient_idempotent (l : List WsClient) (c : WsClient)
    (h : l.count c ≤ 1) :
    removeClient (removeClient l c) c = removeClient l c := by
  induction l with
  | nil => rfl
  | cons hd tl ih =>
    by_cases hc : hd = c
    · subst hc
      have hcc : List.count hd (hd :: tl) = List.count hd tl + 1 :=
        List.count_cons_self hd tl
      have hcount : tl.count hd = 0 := by omega
      simp [removeClient]
      exact removeClient_of_not_mem (List.count_eq_zero.mp hcount)
    · have hcc : List.count c (hd :: tl) = List.count c tl :=
        List.count_cons_of_ne (fun he => hc he.symm) tl
      have htl : tl.count c ≤ 1 := by omega
      simp [removeClient, hc, ih htl]

/-- Witness for `removeClient_idempotent`: removing `clientA` twice from a
duplicate-free registry equals removing it once. -/
theorem removeClient_idempotent_witness :
    removeClient (removeClient [clientA, clientB, clientC] clientA) clientA =
      removeClient [clientA, clientB, clientC] clientA :=
  removeClient_idempotent [clientA, clientB, clientC] clientA (by decide)

end ChatKmat
